import Mathlib

/-!
Shallow embedding of `src/image_to_scan/core.py` (image-to-scan).

Coordinates are idealised as exact rationals (the Python code works on
float32 pixel coordinates); Euclidean lengths use `Real.sqrt`, and
Python's `int()` truncation toward zero is embedded as `pytrunc`.
Python list mutation (`list.pop`) is embedded by explicit state passing,
and a Python exception (`ValueError` from `max([])`, `IndexError`) is
embedded as `Option.none` / the `exn` outcome.
-/

namespace ImageToScan

/-- A 2-D point with rational coordinates (idealising the float32 pixel
coordinates of the Python code). -/
abbrev Point := ℚ × ℚ

/-- A four-vertex contour, as produced by `approx.reshape(4, 2)`:
four points `p0 p1 p2 p3` in input order. -/
structure Quad where
  p0 : Point
  p1 : Point
  p2 : Point
  p3 : Point
deriving DecidableEq, Repr

/-- Index a `Quad` by position, mirroring `pts[i]` on the `(4, 2)` array. -/
def Quad.pt (q : Quad) : Fin 4 → Point
  | 0 => q.p0
  | 1 => q.p1
  | 2 => q.p2
  | 3 => q.p3

/-- First index attaining the minimum of `v`, mirroring `np.argmin`
(ties resolved by first occurrence). -/
def argmin4 (v : Fin 4 → ℚ) : Fin 4 :=
  if v 0 = min (min (v 0) (v 1)) (min (v 2) (v 3)) then 0
  else if v 1 = min (min (v 0) (v 1)) (min (v 2) (v 3)) then 1
  else if v 2 = min (min (v 0) (v 1)) (min (v 2) (v 3)) then 2
  else 3

/-- First index attaining the maximum of `v`, mirroring `np.argmax`
(ties resolved by first occurrence). -/
def argmax4 (v : Fin 4 → ℚ) : Fin 4 :=
  if v 0 = max (max (v 0) (v 1)) (max (v 2) (v 3)) then 0
  else if v 1 = max (max (v 0) (v 1)) (max (v 2) (v 3)) then 1
  else if v 2 = max (max (v 0) (v 1)) (max (v 2) (v 3)) then 2
  else 3

/-- Per-point sum `x + y`, mirroring `s = pts.sum(axis=1)`. -/
def sums (q : Quad) (i : Fin 4) : ℚ := (q.pt i).1 + (q.pt i).2

/-- Per-point difference `y - x`, mirroring `diff = np.diff(pts, axis=1)`. -/
def diffs (q : Quad) (i : Fin 4) : ℚ := (q.pt i).2 - (q.pt i).1

/-- Embedding of `order_points`:
`rect[0] = pts[argmin(s)]`, `rect[2] = pts[argmax(s)]`,
`rect[1] = pts[argmin(diff)]`, `rect[3] = pts[argmax(diff)]`. -/
def order_points (q : Quad) : Quad :=
  { p0 := q.pt (argmin4 (sums q))
    p1 := q.pt (argmin4 (diffs q))
    p2 := q.pt (argmax4 (sums q))
    p3 := q.pt (argmax4 (diffs q)) }

/-! ### Candidate selection (`findLargestCountours`) and the pipeline
decision logic of `convert_object` (lines 223–253 of `core.py`).

`findLargestCountours` is embedded with explicit state passing: Python's
`cntList.pop(i)` / `cntWidths.pop(i)` mutate the caller's lists, so the
embedding returns both the new lists and the final state of the input
lists.  `max([])` raises `ValueError` and out-of-range indexing raises
`IndexError`; both are embedded as `none`. -/

/-- Embedding of `findLargestCountours(cntList, cntWidths)`.
Returns `((newCntList, newCntWidths), (finalCntList, finalCntWidths))`
where the second component is the state of the two argument lists after
the function's `pop` calls, or `none` if the Python code would raise. -/
def findLargestCountours (cntList : List Quad) (cntWidths : List ℚ) :
    Option ((List Quad × List ℚ) × (List Quad × List ℚ)) :=
  match cntWidths.max? with
  | none => none
  | some m1 =>
    let i1 := cntWidths.findIdx (· == m1)
    match cntList[i1]?, cntWidths[i1]? with
    | some c1, some w1 =>
      let cntList1 := cntList.eraseIdx i1
      let cntWidths1 := cntWidths.eraseIdx i1
      match cntWidths1.max? with
      | none => none
      | some m2 =>
        let i2 := cntWidths1.findIdx (· == m2)
        match cntList1[i2]?, cntWidths1[i2]? with
        | some c2, some w2 =>
          some (([c1, c2], [w1, w2]),
                (cntList1.eraseIdx i2, cntWidths1.eraseIdx i2))
        | _, _ => none
    | _, _ => none

/-- Outcome of the `convert_object` decision logic: `exn` models an
uncaught Python exception, `notFound` the `return None` branches, and
`rectified q` reaching the four-point transform with the geometry of
quad `q` (`pts = screenCntList[0]`). -/
inductive ScanOutcome where
  | exn : ScanOutcome
  | notFound : ScanOutcome
  | rectified : Quad → ScanOutcome
deriving DecidableEq, Repr

/-- Embedding of the decision tail of `convert_object` (lines 223–253),
starting from the already-extracted candidate list and widths (contour
extraction by cv2 is external): call `findLargestCountours`, then
`return None` if fewer than 2 candidates survive or if the two selected
widths differ, otherwise proceed to rectify `screenCntList[0]`. -/
def convert_object (screenCntList : List Quad) (scrWidths : List ℚ) :
    ScanOutcome :=
  match findLargestCountours screenCntList scrWidths with
  | none => .exn
  | some ((newList, newWidths), _) =>
    if ¬ 2 ≤ newList.length then .notFound
    else
      match newWidths[0]?, newWidths[1]?, newList[0]? with
      | some w0, some w1, some q0 =>
        if w0 ≠ w1 then .notFound else .rectified q0
      | _, _, _ => .exn

/-- A sample four-vertex contour (unit square). -/
def sqA : Quad := ⟨(0, 0), (1, 0), (1, 1), (0, 1)⟩

/-- A second sample four-vertex contour. -/
def sqB : Quad := ⟨(0, 0), (2, 0), (2, 2), (0, 2)⟩

/-! ### Geometry: `four_point_transform` (lines 59–103 of `core.py`)

The widths/heights are Euclidean lengths (`np.sqrt` idealised as
`Real.sqrt`), and Python's `int()` is truncation toward zero. The
perspective warp itself is an external cv2 primitive; what the code
determines is the output raster size `(maxWidth, maxHeight)` and the
destination corner array `dst`, which are embedded below. -/

/-- Python `int()` on a real number: truncation toward zero. -/
noncomputable def pytrunc (x : ℝ) : ℤ := if 0 ≤ x then ⌊x⌋ else ⌈x⌉

/-- Euclidean length of the segment from `p` to `q`, mirroring
`np.sqrt(((p[0] - q[0]) ** 2) + ((p[1] - q[1]) ** 2))`. -/
noncomputable def edgeLen (p q : Point) : ℝ :=
  Real.sqrt ((((p.1 - q.1) ^ 2 + (p.2 - q.2) ^ 2 : ℚ) : ℝ))

/-- `maxWidth = max(int(widthA), int(widthB))` where
`widthA = |br - bl|` and `widthB = |tr - tl|` over the ordered rect. -/
noncomputable def fpt_maxWidth (pts : Quad) : ℤ :=
  max (pytrunc (edgeLen (order_points pts).p2 (order_points pts).p3))
    (pytrunc (edgeLen (order_points pts).p1 (order_points pts).p0))

/-- `maxHeight = max(int(heightA), int(heightB))` where
`heightA = |tr - br|` and `heightB = |tl - bl|` over the ordered rect. -/
noncomputable def fpt_maxHeight (pts : Quad) : ℤ :=
  max (pytrunc (edgeLen (order_points pts).p1 (order_points pts).p2))
    (pytrunc (edgeLen (order_points pts).p0 (order_points pts).p3))

/-- The destination corner array `dst` of `four_point_transform`:
`[[0, 0], [maxWidth-1, 0], [maxWidth-1, maxHeight-1], [0, maxHeight-1]]`. -/
noncomputable def fpt_dst (pts : Quad) : List (ℤ × ℤ) :=
  [(0, 0), (fpt_maxWidth pts - 1, 0),
   (fpt_maxWidth pts - 1, fpt_maxHeight pts - 1), (0, fpt_maxHeight pts - 1)]

/-- An output raster, abstracted to its pixel dimensions; the pixel
content is produced by the external `cv2.warpPerspective` collaborator,
which returns an image of exactly the requested size. -/
structure Frame where
  width : ℤ
  height : ℤ
deriving DecidableEq, Repr

/-- Embedding of `four_point_transform(image, pts)`: order the points,
compute `maxWidth`/`maxHeight`, and return the warped raster of size
`(maxWidth, maxHeight)` — the function has no failure branch. -/
noncomputable def four_point_transform (pts : Quad) : Frame :=
  ⟨fpt_maxWidth pts, fpt_maxHeight pts⟩

/-- Full-pipeline outcome: the decision logic of `convert_object`
followed by `four_point_transform` on the selected quad. -/
inductive PipelineResult where
  | exn : PipelineResult
  | notFound : PipelineResult
  | rectified : Frame → PipelineResult
deriving DecidableEq, Repr

/-- The scan pipeline from extracted candidates to the final outcome:
`convert_object`'s decision logic, then rectification of the chosen
quad's geometry. -/
noncomputable def scanPipeline (cands : List Quad) (widths : List ℚ) :
    PipelineResult :=
  match convert_object cands widths with
  | .exn => .exn
  | .notFound => .notFound
  | .rectified q => .rectified (four_point_transform q)

/-- Modelled from the spec (§4.3): `widthTop = |TR−TL|`,
`widthBottom = |BR−BL|`, `destWidth = floor(max(widthTop, widthBottom))`. -/
noncomputable def destWidth_spec (pts : Quad) : ℤ :=
  ⌊max (edgeLen (order_points pts).p1 (order_points pts).p0)
      (edgeLen (order_points pts).p2 (order_points pts).p3)⌋

/-- Modelled from the spec (§4.3): `heightLeft = |TL−BL|`,
`heightRight = |TR−BR|`, `destHeight = floor(max(heightLeft, heightRight))`. -/
noncomputable def destHeight_spec (pts : Quad) : ℤ :=
  ⌊max (edgeLen (order_points pts).p0 (order_points pts).p3)
      (edgeLen (order_points pts).p1 (order_points pts).p2)⌋

/-- The axis-aligned corner set of an already-rectified `W×H` frame:
`(0,0), (W-1,0), (W-1,H-1), (0,H-1)`. -/
def rectQuad (W H : ℤ) : Quad :=
  ⟨(0, 0), ((W : ℚ) - 1, 0), ((W : ℚ) - 1, (H : ℚ) - 1), (0, (H : ℚ) - 1)⟩

/-- A degenerate quadrilateral: all four vertices coincide. -/
def degQuad : Quad := ⟨(0, 0), (0, 0), (0, 0), (0, 0)⟩

/-- The canonically ordered corners of the §8 test rectangle. -/
def canonRect : Quad := ⟨(10, 10), (110, 10), (110, 60), (10, 60)⟩

/-- All 24 orderings of the rectangle corners
`(10,10), (110,10), (110,60), (10,60)`. -/
def rectCornerQuads : List Quad :=
  [⟨(10, 10), (110, 10), (110, 60), (10, 60)⟩,
   ⟨(10, 10), (110, 10), (10, 60), (110, 60)⟩,
   ⟨(10, 10), (110, 60), (110, 10), (10, 60)⟩,
   ⟨(10, 10), (110, 60), (10, 60), (110, 10)⟩,
   ⟨(10, 10), (10, 60), (110, 10), (110, 60)⟩,
   ⟨(10, 10), (10, 60), (110, 60), (110, 10)⟩,
   ⟨(110, 10), (10, 10), (110, 60), (10, 60)⟩,
   ⟨(110, 10), (10, 10), (10, 60), (110, 60)⟩,
   ⟨(110, 10), (110, 60), (10, 10), (10, 60)⟩,
   ⟨(110, 10), (110, 60), (10, 60), (10, 10)⟩,
   ⟨(110, 10), (10, 60), (10, 10), (110, 60)⟩,
   ⟨(110, 10), (10, 60), (110, 60), (10, 10)⟩,
   ⟨(110, 60), (10, 10), (110, 10), (10, 60)⟩,
   ⟨(110, 60), (10, 10), (10, 60), (110, 10)⟩,
   ⟨(110, 60), (110, 10), (10, 10), (10, 60)⟩,
   ⟨(110, 60), (110, 10), (10, 60), (10, 10)⟩,
   ⟨(110, 60), (10, 60), (10, 10), (110, 10)⟩,
   ⟨(110, 60), (10, 60), (110, 10), (10, 10)⟩,
   ⟨(10, 60), (10, 10), (110, 10), (110, 60)⟩,
   ⟨(10, 60), (10, 10), (110, 60), (110, 10)⟩,
   ⟨(10, 60), (110, 10), (10, 10), (110, 60)⟩,
   ⟨(10, 60), (110, 10), (110, 60), (10, 10)⟩,
   ⟨(10, 60), (110, 60), (10, 10), (110, 10)⟩,
   ⟨(10, 60), (110, 60), (110, 10), (10, 10)⟩]

/-! ### Basic properties of `argmin4` / `argmax4` -/

theorem min4_cases (v : Fin 4 → ℚ) :
    min (min (v 0) (v 1)) (min (v 2) (v 3)) = v 0 ∨
    min (min (v 0) (v 1)) (min (v 2) (v 3)) = v 1 ∨
    min (min (v 0) (v 1)) (min (v 2) (v 3)) = v 2 ∨
    min (min (v 0) (v 1)) (min (v 2) (v 3)) = v 3 := by
  rcases min_cases (min (v 0) (v 1)) (min (v 2) (v 3)) with ⟨h, -⟩ | ⟨h, -⟩
  · rcases min_cases (v 0) (v 1) with ⟨h', -⟩ | ⟨h', -⟩ <;> rw [h, h'] <;> tauto
  · rcases min_cases (v 2) (v 3) with ⟨h', -⟩ | ⟨h', -⟩ <;> rw [h, h'] <;> tauto

theorem max4_cases (v : Fin 4 → ℚ) :
    max (max (v 0) (v 1)) (max (v 2) (v 3)) = v 0 ∨
    max (max (v 0) (v 1)) (max (v 2) (v 3)) = v 1 ∨
    max (max (v 0) (v 1)) (max (v 2) (v 3)) = v 2 ∨
    max (max (v 0) (v 1)) (max (v 2) (v 3)) = v 3 := by
  rcases max_cases (max (v 0) (v 1)) (max (v 2) (v 3)) with ⟨h, -⟩ | ⟨h, -⟩
  · rcases max_cases (v 0) (v 1) with ⟨h', -⟩ | ⟨h', -⟩ <;> rw [h, h'] <;> tauto
  · rcases max_cases (v 2) (v 3) with ⟨h', -⟩ | ⟨h', -⟩ <;> rw [h, h'] <;> tauto

theorem min4_le (v : Fin 4 → ℚ) (j : Fin 4) :
    min (min (v 0) (v 1)) (min (v 2) (v 3)) ≤ v j := by
  have hl := min_le_left (min (v 0) (v 1)) (min (v 2) (v 3))
  have hr := min_le_right (min (v 0) (v 1)) (min (v 2) (v 3))
  fin_cases j
  · exact hl.trans (min_le_left (v 0) (v 1))
  · exact hl.trans (min_le_right (v 0) (v 1))
  · exact hr.trans (min_le_left (v 2) (v 3))
  · exact hr.trans (min_le_right (v 2) (v 3))

theorem le_max4 (v : Fin 4 → ℚ) (j : Fin 4) :
    v j ≤ max (max (v 0) (v 1)) (max (v 2) (v 3)) := by
  have hl := le_max_left (max (v 0) (v 1)) (max (v 2) (v 3))
  have hr := le_max_right (max (v 0) (v 1)) (max (v 2) (v 3))
  fin_cases j
  · exact (le_max_left (v 0) (v 1)).trans hl
  · exact (le_max_right (v 0) (v 1)).trans hl
  · exact (le_max_left (v 2) (v 3)).trans hr
  · exact (le_max_right (v 2) (v 3)).trans hr

theorem argmin4_val (v : Fin 4 → ℚ) :
    v (argmin4 v) = min (min (v 0) (v 1)) (min (v 2) (v 3)) := by
  unfold argmin4
  split_ifs with h0 h1 h2
  · exact h0
  · exact h1
  · exact h2
  · rcases min4_cases v with h | h | h | h
    · exact absurd h.symm h0
    · exact absurd h.symm h1
    · exact absurd h.symm h2
    · exact h.symm

theorem argmax4_val (v : Fin 4 → ℚ) :
    v (argmax4 v) = max (max (v 0) (v 1)) (max (v 2) (v 3)) := by
  unfold argmax4
  split_ifs with h0 h1 h2
  · exact h0
  · exact h1
  · exact h2
  · rcases max4_cases v with h | h | h | h
    · exact absurd h.symm h0
    · exact absurd h.symm h1
    · exact absurd h.symm h2
    · exact h.symm

theorem argmin4_le (v : Fin 4 → ℚ) (j : Fin 4) : v (argmin4 v) ≤ v j := by
  rw [argmin4_val v]; exact min4_le v j

theorem le_argmax4 (v : Fin 4 → ℚ) (j : Fin 4) : v j ≤ v (argmax4 v) := by
  rw [argmax4_val v]; exact le_max4 v j

theorem argmin4_first (v : Fin 4 → ℚ) (j : Fin 4)
    (h : v j = v (argmin4 v)) : argmin4 v ≤ j := by
  rw [argmin4_val v] at h
  unfold argmin4
  split_ifs with h0 h1 h2
  · exact Fin.zero_le j
  · fin_cases j
    · exact absurd h h0
    all_goals decide
  · fin_cases j
    · exact absurd h h0
    · exact absurd h h1
    all_goals decide
  · fin_cases j
    · exact absurd h h0
    · exact absurd h h1
    · exact absurd h h2
    · decide

theorem argmax4_first (v : Fin 4 → ℚ) (j : Fin 4)
    (h : v j = v (argmax4 v)) : argmax4 v ≤ j := by
  rw [argmax4_val v] at h
  unfold argmax4
  split_ifs with h0 h1 h2
  · exact Fin.zero_le j
  · fin_cases j
    · exact absurd h h0
    all_goals decide
  · fin_cases j
    · exact absurd h h0
    · exact absurd h h1
    all_goals decide
  · fin_cases j
    · exact absurd h h0
    · exact absurd h h1
    · exact absurd h h2
    · decide


/-- With at least two candidates (and matching list lengths), the
two-pass max extraction succeeds: it returns the first-occurrence
maximum width, then the maximum of the remaining widths, and leaves the
input lists (as mutated by `pop`) shorter by two. -/
theorem findLargestCountours_spec (cl : List Quad) (cw : List ℚ)
    (hlen : cl.length = cw.length) (h2 : 2 ≤ cw.length) :
    ∃ c1 c2 w1 w2 postl postw,
      findLargestCountours cl cw = some (([c1, c2], [w1, w2]), (postl, postw)) ∧
      cw.max? = some w1 ∧
      (cw.eraseIdx (cw.findIdx (· == w1))).max? = some w2 ∧
      postl.length = cl.length - 2 ∧ postw.length = cw.length - 2 := by
  have hne : cw ≠ [] := by
    intro h
    rw [h] at h2
    simp at h2
  obtain ⟨m1, hm1⟩ : ∃ m1, cw.max? = some m1 := by
    cases h : cw.max? with
    | none => exact absurd (List.max?_eq_none_iff.mp h) hne
    | some m => exact ⟨m, rfl⟩
  have hmem1 : m1 ∈ cw := List.max?_mem max_choice hm1
  have hlt1 : cw.findIdx (· == m1) < cw.length :=
    List.findIdx_lt_length_of_exists ⟨m1, hmem1, by simp⟩
  have hlt1' : cw.findIdx (· == m1) < cl.length := by omega
  have hv1 : cw[cw.findIdx (· == m1)] = m1 := by
    have := List.findIdx_getElem (w := hlt1)
    simpa using this
  have hw1 : cw[cw.findIdx (· == m1)]? = some m1 := by
    rw [List.getElem?_eq_getElem hlt1, hv1]
  have hc1 : cl[cw.findIdx (· == m1)]? = some cl[cw.findIdx (· == m1)] :=
    List.getElem?_eq_getElem hlt1'
  have hlen1 : (cl.eraseIdx (cw.findIdx (· == m1))).length = cl.length - 1 := by
    rw [List.length_eraseIdx]
    simp [hlt1']
  have hlenw1 : (cw.eraseIdx (cw.findIdx (· == m1))).length = cw.length - 1 := by
    rw [List.length_eraseIdx]
    simp [hlt1]
  set cl1 := cl.eraseIdx (cw.findIdx (· == m1)) with hcl1
  set cw1 := cw.eraseIdx (cw.findIdx (· == m1)) with hcw1
  have hne1 : cw1 ≠ [] := by
    intro h
    rw [h] at hlenw1
    simp at hlenw1
    omega
  obtain ⟨m2, hm2⟩ : ∃ m2, cw1.max? = some m2 := by
    cases h : cw1.max? with
    | none => exact absurd (List.max?_eq_none_iff.mp h) hne1
    | some m => exact ⟨m, rfl⟩
  have hmem2 : m2 ∈ cw1 := List.max?_mem max_choice hm2
  have hlt2 : cw1.findIdx (· == m2) < cw1.length :=
    List.findIdx_lt_length_of_exists ⟨m2, hmem2, by simp⟩
  have hlt2' : cw1.findIdx (· == m2) < cl1.length := by omega
  have hv2 : cw1[cw1.findIdx (· == m2)] = m2 := by
    have := List.findIdx_getElem (w := hlt2)
    simpa using this
  have hw2 : cw1[cw1.findIdx (· == m2)]? = some m2 := by
    rw [List.getElem?_eq_getElem hlt2, hv2]
  have hc2 : cl1[cw1.findIdx (· == m2)]? = some cl1[cw1.findIdx (· == m2)] :=
    List.getElem?_eq_getElem hlt2'
  refine ⟨cl[cw.findIdx (· == m1)], cl1[cw1.findIdx (· == m2)], m1, m2,
    cl1.eraseIdx (cw1.findIdx (· == m2)), cw1.eraseIdx (cw1.findIdx (· == m2)),
    ?_, hm1, hm2, ?_, ?_⟩
  · unfold findLargestCountours
    rw [hm1]
    simp only [← hcl1, ← hcw1, hc1, hw1, hm2, hc2, hw2]
  · rw [List.length_eraseIdx]
    simp [hlt2']
    omega
  · rw [List.length_eraseIdx]
    simp [hlt2]
    omega

/-- C2: `order_points` places in slot 0 the input point with minimum
`x + y`, in slot 2 the one with maximum `x + y`, in slot 1 the one with
minimum `y − x`, and in slot 3 the one with maximum `y − x`; under ties
each slot receives the tied point of smallest input index
(first occurrence, as `np.argmin` / `np.argmax`). -/
theorem order_points_slot_invariants (q : Quad) :
    (∃ i : Fin 4, (order_points q).p0 = q.pt i ∧
      (∀ j, sums q i ≤ sums q j) ∧ (∀ j, sums q j = sums q i → i ≤ j)) ∧
    (∃ i : Fin 4, (order_points q).p2 = q.pt i ∧
      (∀ j, sums q j ≤ sums q i) ∧ (∀ j, sums q j = sums q i → i ≤ j)) ∧
    (∃ i : Fin 4, (order_points q).p1 = q.pt i ∧
      (∀ j, diffs q i ≤ diffs q j) ∧ (∀ j, diffs q j = diffs q i → i ≤ j)) ∧
    (∃ i : Fin 4, (order_points q).p3 = q.pt i ∧
      (∀ j, diffs q j ≤ diffs q i) ∧ (∀ j, diffs q j = diffs q i → i ≤ j)) := by
  refine ⟨⟨argmin4 (sums q), rfl, fun j => argmin4_le (sums q) j,
            fun j hj => argmin4_first (sums q) j hj⟩,
          ⟨argmax4 (sums q), rfl, fun j => le_argmax4 (sums q) j,
            fun j hj => argmax4_first (sums q) j ?_⟩,
          ⟨argmin4 (diffs q), rfl, fun j => argmin4_le (diffs q) j,
            fun j hj => argmin4_first (diffs q) j hj⟩,
          ⟨argmax4 (diffs q), rfl, fun j => le_argmax4 (diffs q) j,
            fun j hj => argmax4_first (diffs q) j ?_⟩⟩
  · exact hj
  · exact hj

/-- C10: every output slot of `order_points` is one of the input points,
but the output need not be a permutation of the input: on the tied input
`(0,0), (3,3), (1,1), (2,2)` (all `y − x` differences equal) the point
`(0,0)` fills slots 0, 1 and 3 while the input point `(1,1)` appears in
no output slot. -/
theorem order_points_slots_from_input :
    (∀ (q : Quad) (j : Fin 4), ∃ i : Fin 4, (order_points q).pt j = q.pt i) ∧
    (order_points ⟨(0, 0), (3, 3), (1, 1), (2, 2)⟩ =
      ⟨(0, 0), (0, 0), (3, 3), (0, 0)⟩ ∧
     Quad.pt ⟨(0, 0), (3, 3), (1, 1), (2, 2)⟩ 2 = (1, 1) ∧
     (∀ j : Fin 4,
       (order_points ⟨(0, 0), (3, 3), (1, 1), (2, 2)⟩).pt j ≠ (1, 1))) := by
  constructor
  · intro q j
    fin_cases j
    · exact ⟨argmin4 (sums q), rfl⟩
    · exact ⟨argmin4 (diffs q), rfl⟩
    · exact ⟨argmax4 (sums q), rfl⟩
    · exact ⟨argmax4 (diffs q), rfl⟩
  · have ha : order_points ⟨(0, 0), (3, 3), (1, 1), (2, 2)⟩ =
        ⟨(0, 0), (0, 0), (3, 3), (0, 0)⟩ := by
      norm_num [order_points, argmin4, argmax4, sums, diffs, Quad.pt,
        min_def, max_def]
    refine ⟨ha, by decide, ?_⟩
    rw [ha]
    decide

/-- C1 (code bug): with 0 or 1 four-vertex candidates the pipeline does
not return the NotFound outcome; `findLargestCountours` evaluates
`max(cntWidths)` on an empty list, which raises `ValueError`
(embedded as `exn`), so the `len >= 2` NotFound check is never reached. -/
theorem convert_object_raises_on_few_candidates :
    convert_object [] [] = ScanOutcome.exn ∧
    convert_object [sqA] [5] = ScanOutcome.exn ∧
    findLargestCountours [] [] = none ∧
    findLargestCountours [sqA] [5] = none := by
  refine ⟨rfl, rfl, rfl, rfl⟩

/-- C7: on candidate widths `[50, 200, 200, 80]`, the two-pass max
extraction selects exactly the two 200-width candidates in
first-occurrence order, the width-equality check passes, and the
pipeline proceeds to rectification with the geometry of the
first-encountered 200-width candidate. -/
theorem selection_scenario_50_200_200_80 (q0 q1 q2 q3 : Quad) :
    findLargestCountours [q0, q1, q2, q3] [50, 200, 200, 80] =
      some (([q1, q2], [200, 200]), ([q0, q3], [50, 80])) ∧
    convert_object [q0, q1, q2, q3] [50, 200, 200, 80] =
      ScanOutcome.rectified q1 := by
  constructor
  · rfl
  · rfl

/-- C3: given at least 2 four-vertex candidates (with matching width
list), the pipeline never raises; it returns NotFound exactly when the
two selected largest widths (first the maximum, then the maximum of the
rest) differ, and proceeds to rectification with the first selected
candidate exactly when they are equal. -/
theorem scan_width_agreement (cands : List Quad) (widths : List ℚ)
    (hlen : cands.length = widths.length) (h2 : 2 ≤ widths.length) :
    ∃ c1 c2 w1 w2 post,
      findLargestCountours cands widths = some (([c1, c2], [w1, w2]), post) ∧
      widths.max? = some w1 ∧
      (widths.eraseIdx (widths.findIdx (· == w1))).max? = some w2 ∧
      (convert_object cands widths = ScanOutcome.notFound ↔ w1 ≠ w2) ∧
      (convert_object cands widths = ScanOutcome.rectified c1 ↔ w1 = w2) ∧
      ((∃ f, scanPipeline cands widths = PipelineResult.rectified f) ↔
        w1 = w2) := by
  obtain ⟨c1, c2, w1, w2, postl, postw, hfind, hmax1, hmax2, -, -⟩ :=
    findLargestCountours_spec cands widths hlen h2
  have hnf : convert_object cands widths = ScanOutcome.notFound ↔ w1 ≠ w2 := by
    unfold convert_object
    rw [hfind]
    by_cases h : w1 = w2 <;> simp [h]
  have hrect : convert_object cands widths = ScanOutcome.rectified c1 ↔
      w1 = w2 := by
    unfold convert_object
    rw [hfind]
    by_cases h : w1 = w2 <;> simp [h]
  refine ⟨c1, c2, w1, w2, (postl, postw), hfind, hmax1, hmax2, hnf, hrect, ?_⟩
  constructor
  · rintro ⟨f, hf⟩
    by_contra h
    have hn := hnf.mpr h
    unfold scanPipeline at hf
    rw [hn] at hf
    simp at hf
  · intro h
    refine ⟨four_point_transform c1, ?_⟩
    unfold scanPipeline
    rw [hrect.mpr h]

/-- Witness for `scan_width_agreement` at candidates `[sqA, sqB]` with
equal widths `[3, 3]`. -/
theorem scan_width_agreement_witness :
    ([sqA, sqB].length = [(3 : ℚ), 3].length ∧ 2 ≤ [(3 : ℚ), 3].length) ∧
    (∃ c1 c2 w1 w2 post,
      findLargestCountours [sqA, sqB] [(3 : ℚ), 3] =
        some (([c1, c2], [w1, w2]), post) ∧
      ([(3 : ℚ), 3]).max? = some w1 ∧
      (([(3 : ℚ), 3]).eraseIdx (([(3 : ℚ), 3]).findIdx (· == w1))).max? =
        some w2 ∧
      (convert_object [sqA, sqB] [(3 : ℚ), 3] = ScanOutcome.notFound ↔
        w1 ≠ w2) ∧
      (convert_object [sqA, sqB] [(3 : ℚ), 3] = ScanOutcome.rectified c1 ↔
        w1 = w2) ∧
      ((∃ f, scanPipeline [sqA, sqB] [(3 : ℚ), 3] =
          PipelineResult.rectified f) ↔ w1 = w2)) :=
  ⟨⟨rfl, by decide⟩, scan_width_agreement [sqA, sqB] [3, 3] rfl (by decide)⟩

/-- C8 (amended): `findLargestCountours` mutates its inputs; whenever
selection succeeds (at least two candidates, matching lengths), the two
selected entries are removed from the input lists, so after the call
both input lists are two elements shorter and hence changed. -/
theorem findLargestCountours_shrinks_inputs (cl : List Quad) (cw : List ℚ)
    (hlen : cl.length = cw.length) (h2 : 2 ≤ cw.length) :
    ∃ sel postl postw,
      findLargestCountours cl cw = some (sel, (postl, postw)) ∧
      postl.length = cl.length - 2 ∧ postw.length = cw.length - 2 ∧
      postl ≠ cl ∧ postw ≠ cw := by
  obtain ⟨c1, c2, w1, w2, postl, postw, hfind, -, -, hl, hw⟩ :=
    findLargestCountours_spec cl cw hlen h2
  refine ⟨([c1, c2], [w1, w2]), postl, postw, hfind, hl, hw, ?_, ?_⟩
  · intro h
    rw [h] at hl
    omega
  · intro h
    rw [h] at hw
    omega

/-- Witness for `findLargestCountours_shrinks_inputs` at input lists
`[sqA, sqB]` and `[3, 4]`. -/
theorem findLargestCountours_shrinks_inputs_witness :
    ([sqA, sqB].length = [(3 : ℚ), 4].length ∧ 2 ≤ [(3 : ℚ), 4].length) ∧
    (∃ sel postl postw,
      findLargestCountours [sqA, sqB] [(3 : ℚ), 4] =
        some (sel, (postl, postw)) ∧
      postl.length = [sqA, sqB].length - 2 ∧
      postw.length = [(3 : ℚ), 4].length - 2 ∧
      postl ≠ [sqA, sqB] ∧ postw ≠ [(3 : ℚ), 4]) :=
  ⟨⟨rfl, by decide⟩,
    findLargestCountours_shrinks_inputs [sqA, sqB] [3, 4] rfl (by decide)⟩

/-! ### Geometry lemmas -/

theorem pytrunc_of_nonneg {x : ℝ} (h : 0 ≤ x) : pytrunc x = ⌊x⌋ := if_pos h

theorem pytrunc_intCast (n : ℤ) : pytrunc ((n : ℤ) : ℝ) = n := by
  unfold pytrunc
  split_ifs <;> simp

theorem edgeLen_nonneg (p q : Point) : 0 ≤ edgeLen p q := Real.sqrt_nonneg _

/-- Evaluate an edge length whose squared length is a perfect square. -/
theorem edgeLen_eval (p q : Point) (c : ℤ) (hc : 0 ≤ c)
    (h : (p.1 - q.1) ^ 2 + (p.2 - q.2) ^ 2 = (c : ℚ) ^ 2) :
    edgeLen p q = ((c : ℤ) : ℝ) := by
  rw [edgeLen, h]
  push_cast
  exact Real.sqrt_sq (by exact_mod_cast hc)

theorem floor_max_real (a b : ℝ) : ⌊max a b⌋ = max ⌊a⌋ ⌊b⌋ :=
  (Int.floor_mono (α := ℝ)).map_max

/-- C5: the destination dimensions computed by the code (`max` of
per-length `int()` truncations) coincide with the spec formula
(`floor` of the `max` of the Euclidean edge lengths). -/
theorem dest_dims_eq_spec (pts : Quad) :
    fpt_maxWidth pts = destWidth_spec pts ∧
    fpt_maxHeight pts = destHeight_spec pts := by
  constructor
  · rw [fpt_maxWidth, destWidth_spec,
      pytrunc_of_nonneg (edgeLen_nonneg _ _),
      pytrunc_of_nonneg (edgeLen_nonneg _ _),
      floor_max_real]
    exact max_comm _ _
  · rw [fpt_maxHeight, destHeight_spec,
      pytrunc_of_nonneg (edgeLen_nonneg _ _),
      pytrunc_of_nonneg (edgeLen_nonneg _ _),
      floor_max_real]
    exact max_comm _ _

theorem order_points_degQuad : order_points degQuad = degQuad := by
  norm_num [order_points, argmin4, argmax4, sums, diffs, Quad.pt, degQuad,
    min_def, max_def]

theorem edgeLen_zero_zero : edgeLen ((0 : ℚ), (0 : ℚ)) (0, 0) = ((0 : ℤ) : ℝ) :=
  edgeLen_eval _ _ 0 le_rfl (by norm_num)

theorem fpt_maxWidth_degQuad : fpt_maxWidth degQuad = 0 := by
  rw [fpt_maxWidth, order_points_degQuad]
  show max (pytrunc (edgeLen (0, 0) (0, 0))) (pytrunc (edgeLen (0, 0) (0, 0))) = 0
  rw [edgeLen_zero_zero, pytrunc_intCast]
  simp

theorem fpt_maxHeight_degQuad : fpt_maxHeight degQuad = 0 := by
  rw [fpt_maxHeight, order_points_degQuad]
  show max (pytrunc (edgeLen (0, 0) (0, 0))) (pytrunc (edgeLen (0, 0) (0, 0))) = 0
  rw [edgeLen_zero_zero, pytrunc_intCast]
  simp

/-- C4 counterexample: on the degenerate quadrilateral `degQuad` both
computed destination dimensions are 0, yet the pipeline does not fail
with the NotFound outcome — it produces a 0×0 frame. -/
theorem rectify_no_degeneracy_check_cex :
    fpt_maxWidth degQuad = 0 ∧ fpt_maxHeight degQuad = 0 ∧
    scanPipeline [degQuad, degQuad] [7, 7] =
      PipelineResult.rectified ⟨0, 0⟩ ∧
    scanPipeline [degQuad, degQuad] [7, 7] ≠ PipelineResult.notFound := by
  have hco : convert_object [degQuad, degQuad] [7, 7] =
      ScanOutcome.rectified degQuad := rfl
  have hsp : scanPipeline [degQuad, degQuad] [7, 7] =
      PipelineResult.rectified ⟨0, 0⟩ := by
    unfold scanPipeline
    rw [hco]
    show PipelineResult.rectified ⟨fpt_maxWidth degQuad, fpt_maxHeight degQuad⟩ =
      PipelineResult.rectified ⟨0, 0⟩
    rw [fpt_maxWidth_degQuad, fpt_maxHeight_degQuad]
  refine ⟨fpt_maxWidth_degQuad, fpt_maxHeight_degQuad, hsp, ?_⟩
  rw [hsp]
  simp

/-- C4 (amended): `four_point_transform` has no zero-dimension check:
whenever selection chooses a quad `q`, even one whose computed
`maxWidth` or `maxHeight` is 0, the pipeline returns a `rectified`
frame with exactly those (degenerate) dimensions, never `notFound`. -/
theorem rectify_no_degeneracy_check (cands : List Quad) (widths : List ℚ)
    (q : Quad) (hq : convert_object cands widths = ScanOutcome.rectified q)
    (hdeg : fpt_maxWidth q = 0 ∨ fpt_maxHeight q = 0) :
    scanPipeline cands widths =
      PipelineResult.rectified ⟨fpt_maxWidth q, fpt_maxHeight q⟩ ∧
    scanPipeline cands widths ≠ PipelineResult.notFound := by
  have hsp : scanPipeline cands widths =
      PipelineResult.rectified ⟨fpt_maxWidth q, fpt_maxHeight q⟩ := by
    unfold scanPipeline
    rw [hq]
    rfl
  refine ⟨hsp, ?_⟩
  rw [hsp]
  simp

/-- Witness for `rectify_no_degeneracy_check` at the candidate list
`[degQuad, degQuad]` with widths `[7, 7]`. -/
theorem rectify_no_degeneracy_check_witness :
    (convert_object [degQuad, degQuad] [(7 : ℚ), 7] =
        ScanOutcome.rectified degQuad ∧
      (fpt_maxWidth degQuad = 0 ∨ fpt_maxHeight degQuad = 0)) ∧
    (scanPipeline [degQuad, degQuad] [(7 : ℚ), 7] =
        PipelineResult.rectified ⟨fpt_maxWidth degQuad, fpt_maxHeight degQuad⟩ ∧
      scanPipeline [degQuad, degQuad] [(7 : ℚ), 7] ≠
        PipelineResult.notFound) :=
  ⟨⟨rfl, Or.inl fpt_maxWidth_degQuad⟩,
    rectify_no_degeneracy_check [degQuad, degQuad] [7, 7] degQuad rfl
      (Or.inl fpt_maxWidth_degQuad)⟩

theorem order_points_rectCornerQuads (q : Quad) (hq : q ∈ rectCornerQuads) :
    order_points q = canonRect := by
  fin_cases hq <;>
    norm_num [order_points, argmin4, argmax4, sums, diffs, Quad.pt, canonRect,
      min_def, max_def]

theorem edgeLen_canon_bottom :
    edgeLen ((110 : ℚ), (60 : ℚ)) (10, 60) = ((100 : ℤ) : ℝ) :=
  edgeLen_eval _ _ 100 (by norm_num) (by norm_num)

theorem edgeLen_canon_top :
    edgeLen ((110 : ℚ), (10 : ℚ)) (10, 10) = ((100 : ℤ) : ℝ) :=
  edgeLen_eval _ _ 100 (by norm_num) (by norm_num)

theorem edgeLen_canon_right :
    edgeLen ((110 : ℚ), (10 : ℚ)) (110, 60) = ((50 : ℤ) : ℝ) :=
  edgeLen_eval _ _ 50 (by norm_num) (by norm_num)

theorem edgeLen_canon_left :
    edgeLen ((10 : ℚ), (10 : ℚ)) (10, 60) = ((50 : ℤ) : ℝ) :=
  edgeLen_eval _ _ 50 (by norm_num) (by norm_num)

/-- C6: for each of the 24 orderings of the rectangle corners
`(10,10), (110,10), (110,60), (10,60)`, the computed destination width
and height are within 1 of 100 and 50 (in fact exactly 100 and 50), the
destination corners in TL/TR/BR/BL order are
`(0,0), (W−1,0), (W−1,H−1), (0,H−1)`, and the output raster has exactly
the computed dimensions. -/
theorem rectify_fixed_rectangle (q : Quad) (hq : q ∈ rectCornerQuads) :
    fpt_maxWidth q = 100 ∧ fpt_maxHeight q = 50 ∧
    |fpt_maxWidth q - 100| ≤ 1 ∧ |fpt_maxHeight q - 50| ≤ 1 ∧
    fpt_dst q = [(0, 0), (fpt_maxWidth q - 1, 0),
      (fpt_maxWidth q - 1, fpt_maxHeight q - 1), (0, fpt_maxHeight q - 1)] ∧
    fpt_dst q = [(0, 0), (99, 0), (99, 49), (0, 49)] ∧
    four_point_transform q = ⟨100, 50⟩ := by
  have h := order_points_rectCornerQuads q hq
  have hwd : fpt_maxWidth q = 100 := by
    rw [fpt_maxWidth, h]
    show max (pytrunc (edgeLen (110, 60) (10, 60)))
      (pytrunc (edgeLen (110, 10) (10, 10))) = 100
    rw [edgeLen_canon_bottom, edgeLen_canon_top, pytrunc_intCast]
    simp
  have hht : fpt_maxHeight q = 50 := by
    rw [fpt_maxHeight, h]
    show max (pytrunc (edgeLen (110, 10) (110, 60)))
      (pytrunc (edgeLen (10, 10) (10, 60))) = 50
    rw [edgeLen_canon_right, edgeLen_canon_left, pytrunc_intCast]
    simp
  refine ⟨hwd, hht, by rw [hwd]; decide, by rw [hht]; decide, rfl, ?_, ?_⟩
  · rw [fpt_dst, hwd, hht]
    norm_num
  · unfold four_point_transform
    rw [hwd, hht]

/-- Witness for `rectify_fixed_rectangle` at the first of the 24
orderings. -/
theorem rectify_fixed_rectangle_witness :
    (⟨(10, 10), (110, 10), (110, 60), (10, 60)⟩ : Quad) ∈ rectCornerQuads ∧
    (fpt_maxWidth ⟨(10, 10), (110, 10), (110, 60), (10, 60)⟩ = 100 ∧
     fpt_maxHeight ⟨(10, 10), (110, 10), (110, 60), (10, 60)⟩ = 50 ∧
     |fpt_maxWidth ⟨(10, 10), (110, 10), (110, 60), (10, 60)⟩ - 100| ≤ 1 ∧
     |fpt_maxHeight ⟨(10, 10), (110, 10), (110, 60), (10, 60)⟩ - 50| ≤ 1 ∧
     fpt_dst ⟨(10, 10), (110, 10), (110, 60), (10, 60)⟩ =
       [(0, 0), (fpt_maxWidth ⟨(10, 10), (110, 10), (110, 60), (10, 60)⟩ - 1, 0),
        (fpt_maxWidth ⟨(10, 10), (110, 10), (110, 60), (10, 60)⟩ - 1,
          fpt_maxHeight ⟨(10, 10), (110, 10), (110, 60), (10, 60)⟩ - 1),
        (0, fpt_maxHeight ⟨(10, 10), (110, 10), (110, 60), (10, 60)⟩ - 1)] ∧
     fpt_dst ⟨(10, 10), (110, 10), (110, 60), (10, 60)⟩ =
       [(0, 0), (99, 0), (99, 49), (0, 49)] ∧
     four_point_transform ⟨(10, 10), (110, 10), (110, 60), (10, 60)⟩ =
       ⟨100, 50⟩) :=
  ⟨by decide, rectify_fixed_rectangle _ (by decide)⟩

theorem order_points_rectQuad (W H : ℤ) (hW : 1 ≤ W) (hH : 1 ≤ H) :
    order_points (rectQuad W H) = rectQuad W H := by
  have hw : (0 : ℚ) ≤ (W : ℚ) - 1 := by
    have : (1 : ℚ) ≤ (W : ℚ) := by exact_mod_cast hW
    linarith
  have hh : (0 : ℚ) ≤ (H : ℚ) - 1 := by
    have : (1 : ℚ) ≤ (H : ℚ) := by exact_mod_cast hH
    linarith
  have h0 : (rectQuad W H).pt (argmin4 (sums (rectQuad W H))) =
      (rectQuad W H).p0 := by
    have hle := argmin4_le (sums (rectQuad W H)) 0
    revert hle
    generalize argmin4 (sums (rectQuad W H)) = i
    intro hle
    fin_cases i
    · rfl
    · simp only [sums, Quad.pt, rectQuad] at hle ⊢
      rw [Prod.mk.injEq]
      constructor <;> · norm_num at hle ⊢ <;> linarith
    · simp only [sums, Quad.pt, rectQuad] at hle ⊢
      rw [Prod.mk.injEq]
      constructor <;> · norm_num at hle ⊢ <;> linarith
    · simp only [sums, Quad.pt, rectQuad] at hle ⊢
      rw [Prod.mk.injEq]
      constructor <;> · norm_num at hle ⊢ <;> linarith
  have h1 : (rectQuad W H).pt (argmin4 (diffs (rectQuad W H))) =
      (rectQuad W H).p1 := by
    have hle := argmin4_le (diffs (rectQuad W H)) 1
    revert hle
    generalize argmin4 (diffs (rectQuad W H)) = i
    intro hle
    fin_cases i
    · simp only [diffs, Quad.pt, rectQuad] at hle ⊢
      rw [Prod.mk.injEq]
      constructor <;> · norm_num at hle ⊢ <;> linarith
    · rfl
    · simp only [diffs, Quad.pt, rectQuad] at hle ⊢
      rw [Prod.mk.injEq]
      constructor <;> · norm_num at hle ⊢ <;> linarith
    · simp only [diffs, Quad.pt, rectQuad] at hle ⊢
      rw [Prod.mk.injEq]
      constructor <;> · norm_num at hle ⊢ <;> linarith
  have h2 : (rectQuad W H).pt (argmax4 (sums (rectQuad W H))) =
      (rectQuad W H).p2 := by
    have hle := le_argmax4 (sums (rectQuad W H)) 2
    revert hle
    generalize argmax4 (sums (rectQuad W H)) = i
    intro hle
    fin_cases i
    · simp only [sums, Quad.pt, rectQuad] at hle ⊢
      rw [Prod.mk.injEq]
      constructor <;> · norm_num at hle ⊢ <;> linarith
    · simp only [sums, Quad.pt, rectQuad] at hle ⊢
      rw [Prod.mk.injEq]
      constructor <;> · norm_num at hle ⊢ <;> linarith
    · rfl
    · simp only [sums, Quad.pt, rectQuad] at hle ⊢
      rw [Prod.mk.injEq]
      constructor <;> · norm_num at hle ⊢ <;> linarith
  have h3 : (rectQuad W H).pt (argmax4 (diffs (rectQuad W H))) =
      (rectQuad W H).p3 := by
    have hle := le_argmax4 (diffs (rectQuad W H)) 3
    revert hle
    generalize argmax4 (diffs (rectQuad W H)) = i
    intro hle
    fin_cases i
    · simp only [diffs, Quad.pt, rectQuad] at hle ⊢
      rw [Prod.mk.injEq]
      constructor <;> · norm_num at hle ⊢ <;> linarith
    · simp only [diffs, Quad.pt, rectQuad] at hle ⊢
      rw [Prod.mk.injEq]
      constructor <;> · norm_num at hle ⊢ <;> linarith
    · simp only [diffs, Quad.pt, rectQuad] at hle ⊢
      rw [Prod.mk.injEq]
      constructor <;> · norm_num at hle ⊢ <;> linarith
    · rfl
  unfold order_points
  rw [h0, h1, h2, h3]

/-- C9: rectification is idempotent on dimensions up to truncation:
applying `four_point_transform` to the corner set
`(0,0), (W−1,0), (W−1,H−1), (0,H−1)` of an already-rectified `W×H`
frame yields dimensions (in fact `W−1` and `H−1`) within 1 of `W`
and `H`. -/
theorem rectify_idempotent_dims (W H : ℤ) (hW : 1 ≤ W) (hH : 1 ≤ H) :
    |(four_point_transform (rectQuad W H)).width - W| ≤ 1 ∧
    |(four_point_transform (rectQuad W H)).height - H| ≤ 1 := by
  have hop := order_points_rectQuad W H hW hH
  have hwd : fpt_maxWidth (rectQuad W H) = W - 1 := by
    rw [fpt_maxWidth, hop]
    show max (pytrunc (edgeLen ((W : ℚ) - 1, (H : ℚ) - 1) (0, (H : ℚ) - 1)))
      (pytrunc (edgeLen ((W : ℚ) - 1, 0) (0, 0))) = W - 1
    rw [edgeLen_eval _ _ (W - 1) (by omega) (by push_cast; ring),
      edgeLen_eval _ _ (W - 1) (by omega) (by push_cast; ring),
      pytrunc_intCast]
    exact max_self _
  have hht : fpt_maxHeight (rectQuad W H) = H - 1 := by
    rw [fpt_maxHeight, hop]
    show max (pytrunc (edgeLen ((W : ℚ) - 1, 0) ((W : ℚ) - 1, (H : ℚ) - 1)))
      (pytrunc (edgeLen (0, 0) (0, (H : ℚ) - 1))) = H - 1
    rw [edgeLen_eval _ _ (H - 1) (by omega) (by push_cast; ring),
      edgeLen_eval _ _ (H - 1) (by omega) (by push_cast; ring),
      pytrunc_intCast]
    exact max_self _
  have hfw : (four_point_transform (rectQuad W H)).width = W - 1 := by
    unfold four_point_transform
    exact hwd
  have hfh : (four_point_transform (rectQuad W H)).height = H - 1 := by
    unfold four_point_transform
    exact hht
  rw [hfw, hfh]
  constructor
  · rw [show W - 1 - W = -1 by ring]
    decide
  · rw [show H - 1 - H = -1 by ring]
    decide

/-- Witness for `rectify_idempotent_dims` at `W = 3`, `H = 2`. -/
theorem rectify_idempotent_dims_witness :
    ((1 : ℤ) ≤ 3 ∧ (1 : ℤ) ≤ 2) ∧
    (|(four_point_transform (rectQuad 3 2)).width - 3| ≤ 1 ∧
     |(four_point_transform (rectQuad 3 2)).height - 2| ≤ 1) :=
  ⟨⟨by decide, by decide⟩, rectify_idempotent_dims 3 2 (by decide) (by decide)⟩

/-- C8 counterexample: `findLargestCountours` does not leave its input
lists unchanged; on input lists `[sqA, sqB]` and `[3, 4]` the final
state of both input lists after the function's `pop` calls is `[]`,
which differs from the inputs. -/
theorem findLargestCountours_mutates_inputs :
    findLargestCountours [sqA, sqB] [3, 4] =
      some (([sqB, sqA], [4, 3]), ([], [])) ∧
    (([], []) : List Quad × List ℚ) ≠ ([sqA, sqB], [3, 4]) := by
  refine ⟨rfl, by simp⟩

end ImageToScan
